import Mathlib

/-!
Shallow embedding of the PasswordHashing repository (src/auth.py, src/main.py).

Python byte strings are modelled as `List Nat` (each element one byte),
Python `str` values as Lean `String`.  Fallible Python code (raised
exceptions) is modelled with `Except PyErr`.  The external cryptographic
libraries (hashlib, argon2-cffi, bcrypt) are modelled as abstract
deterministic byte functions bundled in a `Primitives` record; where a
property depends on a library's documented contract (output length,
encoded-output format), that contract appears either as an explicit
hypothesis or, for argon2's `hash_secret`, as an executable model of its
documented encoded-output format.  The random sources consumed by
`get_hashed_password` (`os.urandom(16)`, `bcrypt.gensalt()`) are an
explicit `Rng` record, so that dependence on randomness is visible in the
statements.
-/

namespace PasswordHashing

/-- A Python `bytes` value: a list of byte values. -/
abbrev Bytes := List Nat

/-- Python exceptions that the modelled code can raise. -/
inductive PyErr where
  /-- argon2-cffi `HashingError` (e.g. salt shorter than the minimum). -/
  | HashingError
  /-- `ValueError` (e.g. `bytes.fromhex` on a non-hex string, bcrypt on a malformed salt). -/
  | ValueError
  /-- `KeyError` (enum lookup `HashingAlgorithm[name]` with an unknown name). -/
  | KeyError
  /-- `AttributeError` (attribute lookup failure, e.g. `Auth.hash_md5` in main.py). -/
  | AttributeError
  /-- `TypeError` (operation on incompatible types, e.g. `bytes + str`). -/
  | TypeError
  /-- auth.py's own `raise Exception("There was an error with hashing the password.")`. -/
  | GenericException
deriving DecidableEq, Repr

/-- Python `str.encode()`: UTF-8 bytes of a string. -/
def strEncode (s : String) : Bytes := s.toUTF8.toList.map UInt8.toNat

/-- The sixteen lowercase hexadecimal digit characters, in value order. -/
def hexDigits : List Char := "0123456789abcdef".data

/-- The two lowercase hex characters of one byte (high nibble first), as
produced by Python's `bytes.hex()`. -/
def byteToHex (b : Nat) : List Char :=
  [hexDigits.getD (b / 16) '0', hexDigits.getD (b % 16) '0']

/-- The character list of Python's `bytes.hex()`: two lowercase hex digits
per byte, no separator. -/
def bytesHexChars (bs : Bytes) : List Char := (bs.map byteToHex).flatten

/-- Python `bytes.hex()`: lowercase hex string of a byte string, no separator. -/
def bytesHex (bs : Bytes) : String := String.mk (bytesHexChars bs)

/-- Value of a single hexadecimal digit character, upper or lower case
accepted (as by Python's `bytes.fromhex`). -/
def hexVal (c : Char) : Option Nat :=
  if '0' ≤ c ∧ c ≤ '9' then some (c.toNat - '0'.toNat)
  else if 'a' ≤ c ∧ c ≤ 'f' then some (c.toNat - 'a'.toNat + 10)
  else if 'A' ≤ c ∧ c ≤ 'F' then some (c.toNat - 'A'.toNat + 10)
  else none

/-- Parse an even-length run of hex digit characters into bytes; `none`
models the `ValueError` raised on an odd count or a non-hex character. -/
def hexPairs : List Char → Option Bytes
  | [] => some []
  | [_] => none
  | c₁ :: c₂ :: rest =>
    match hexVal c₁, hexVal c₂, hexPairs rest with
    | some h, some l, some tail => some ((16 * h + l) :: tail)
    | _, _, _ => none

/-- Python `bytes.fromhex`: hex string to bytes; ASCII space separators are
skipped, anything else non-hex (or an odd digit count) raises `ValueError`,
modelled as `none`. -/
def bytesFromHex (s : String) : Option Bytes :=
  hexPairs (s.data.filter (fun c => c ≠ ' '))

/-- Modelled from the spec: the file hashing_algorithm.py is not under src/.
Spec section 3 fixes a closed six-member enumeration with integer ids 1..6;
the member names MD5, SHA512, PBKDF2, ARGON2, BCRYPT, SCRYPT are the ones
auth.py references (`HashingAlgorithm.MD5`, ...) and section 6 confirms the
persisted form is the member name (e.g. "ARGON2"). -/
inductive HashingAlgorithm where
  | MD5
  | SHA512
  | PBKDF2
  | ARGON2
  | BCRYPT
  | SCRYPT
deriving DecidableEq, Repr

/-- The integer identifier of each enumeration member (spec section 3, and
the 1-indexed menu of main.py's get_algorithm_user_choice). -/
def HashingAlgorithm.id : HashingAlgorithm → Nat
  | .MD5 => 1
  | .SHA512 => 2
  | .PBKDF2 => 3
  | .ARGON2 => 4
  | .BCRYPT => 5
  | .SCRYPT => 6

/-- The persisted name of each enumeration member (Python `member.name`). -/
def HashingAlgorithm.name : HashingAlgorithm → String
  | .MD5 => "MD5"
  | .SHA512 => "SHA512"
  | .PBKDF2 => "PBKDF2"
  | .ARGON2 => "ARGON2"
  | .BCRYPT => "BCRYPT"
  | .SCRYPT => "SCRYPT"

/-- Python `HashingAlgorithm[name]`: lookup by member name; `none` models
the `KeyError` raised on an unknown name. -/
def HashingAlgorithm.fromName (s : String) : Option HashingAlgorithm :=
  if s = "MD5" then some .MD5
  else if s = "SHA512" then some .SHA512
  else if s = "PBKDF2" then some .PBKDF2
  else if s = "ARGON2" then some .ARGON2
  else if s = "BCRYPT" then some .BCRYPT
  else if s = "SCRYPT" then some .SCRYPT
  else none

/-- Python `HashingAlgorithm(n)`: lookup by value; `none` models the
`ValueError` raised on an id outside 1..6. -/
def HashingAlgorithm.fromId (n : Nat) : Option HashingAlgorithm :=
  if n = 1 then some .MD5
  else if n = 2 then some .SHA512
  else if n = 3 then some .PBKDF2
  else if n = 4 then some .ARGON2
  else if n = 5 then some .BCRYPT
  else if n = 6 then some .SCRYPT
  else none

/-- A value supplied at an (untyped) Python call site expecting a
HashingAlgorithm: either an actual member of the enumeration, or any other
value (represented by an integer), which a plain-Enum member never compares
equal to. -/
inductive AlgoValue where
  | enum (a : HashingAlgorithm)
  | other (n : Nat)
deriving DecidableEq, Repr

/-- Python `==` between the supplied value and an enumeration member: a
plain Enum member is equal only to itself, so any non-member value fails
every such comparison. -/
def algEq (v : AlgoValue) (m : HashingAlgorithm) : Bool :=
  match v with
  | .enum a => a = m
  | .other _ => false

/-- The argon2 variant selector, `argon2.low_level.Type`. -/
inductive Argon2Type where
  | D
  | I
  | ID
deriving DecidableEq, Repr

/-- The variant tag that appears in argon2's encoded output. -/
def Argon2Type.typeName : Argon2Type → String
  | .D => "argon2d"
  | .I => "argon2i"
  | .ID => "argon2id"

/-- ASCII bytes of a string (used for the ASCII-only encoded forms that the
argon2 and bcrypt libraries produce). -/
def asciiBytes (s : String) : Bytes := s.data.map Char.toNat

/-- The standard base64 alphabet, used (without padding) inside argon2's
encoded output. -/
def b64Alphabet : List Char :=
  "ABCDEFGHIJKLMNOPQRSTUVWXYZabcdefghijklmnopqrstuvwxyz0123456789+/".data

/-- Unpadded base64 encoding of a byte string (argon2's B64 encoding). -/
def b64NoPad : Bytes → List Char
  | [] => []
  | [a] =>
    [b64Alphabet.getD (a / 4 % 64) 'A', b64Alphabet.getD (a % 4 * 16) 'A']
  | [a, b] =>
    [b64Alphabet.getD (a / 4 % 64) 'A', b64Alphabet.getD (a % 4 * 16 + b / 16) 'A',
     b64Alphabet.getD (b % 16 * 4) 'A']
  | a :: b :: c :: rest =>
    b64Alphabet.getD (a / 4 % 64) 'A' :: b64Alphabet.getD (a % 4 * 16 + b / 16) 'A' ::
    b64Alphabet.getD (b % 16 * 4 + c / 64) 'A' :: b64Alphabet.getD (c % 64) 'A' ::
    b64NoPad rest

/-- The external library primitives called by auth.py, as abstract
deterministic byte functions.  `argon2raw` is the raw argon2 hash that
`hash_secret` base64-embeds into its encoded output (arguments: secret,
salt, time_cost, memory_cost, parallelism, hash_len, type).  `bcryptHashpw`
is `bcrypt.hashpw`; `none` models the `ValueError` the library raises on a
malformed salt, `some` its full encoded salt-plus-digest output. -/
structure Primitives where
  md5 : Bytes → Bytes
  sha512 : Bytes → Bytes
  pbkdf2HmacSha256 : Bytes → Bytes → Nat → Bytes
  argon2raw : Bytes → Bytes → Nat → Nat → Nat → Nat → Argon2Type → Bytes
  bcryptHashpw : Bytes → Bytes → Option Bytes
  scrypt : Bytes → Bytes → Nat → Nat → Nat → Bytes

/-- The random sources one call of get_hashed_password may consume:
`urandom16` is the value `os.urandom(16)` would return, `gensalt` the value
`bcrypt.gensalt()` would return. -/
structure Rng where
  urandom16 : Bytes
  gensalt : Bytes

/-- Modelled after `argon2.low_level.hash_secret`: rejects a salt shorter
than the library's 8-byte minimum with `HashingError`, and otherwise
returns the full encoded hash, i.e. the ASCII bytes of
`$<variant>$v=19$m=<memory_cost>,t=<time_cost>,p=<parallelism>$` followed by
the unpadded base64 of the salt, `$`, and the unpadded base64 of the raw
`hash_len`-byte hash — not the raw hash bytes themselves. -/
def hash_secret (prims : Primitives) (secret salt : Bytes)
    (time_cost memory_cost parallelism hash_len : Nat) (ty : Argon2Type) :
    Except PyErr Bytes :=
  if salt.length < 8 then .error .HashingError
  else
    .ok (asciiBytes ("$" ++ ty.typeName ++ "$v=19$m=" ++ toString memory_cost ++
          ",t=" ++ toString time_cost ++ ",p=" ++ toString parallelism ++ "$") ++
         asciiBytes (String.mk (b64NoPad salt)) ++ asciiBytes "$" ++
         asciiBytes (String.mk (b64NoPad
           (prims.argon2raw secret salt time_cost memory_cost parallelism hash_len ty))))

/-- Python negative-start slice `x[-n:]`: the last `n` elements, or the
whole list when it is shorter than `n`. -/
def pySliceLast (n : Nat) (l : Bytes) : Bytes := l.drop (l.length - n)

/-- Auth.__hash_md5: `hashlib.md5(salt + password).digest()`. -/
def hash_md5 (prims : Primitives) (password salt : Bytes) : Bytes :=
  prims.md5 (salt ++ password)

/-- Auth.__hash_sha512: `hashlib.sha512(salt + password).digest()`. -/
def hash_sha512 (prims : Primitives) (password salt : Bytes) : Bytes :=
  prims.sha512 (salt ++ password)

/-- Auth.__hash_pbkdf2: `hashlib.pbkdf2_hmac('sha256', password, salt, 100000)`. -/
def hash_pbkdf2 (prims : Primitives) (password salt : Bytes) : Bytes :=
  prims.pbkdf2HmacSha256 password salt 100000

/-- Auth.__hash_argon2: `hash_secret(password, salt, time_cost=2,
memory_cost=102400, parallelism=8, hash_len=32, type=Type.I)`.  Note the
source selects `Type.I` (Argon2i). -/
def hash_argon2 (prims : Primitives) (password salt : Bytes) : Except PyErr Bytes :=
  hash_secret prims password salt 2 102400 8 32 Argon2Type.I

/-- Auth.__hash_bcrypt: `bcrypt.hashpw(password, salt)[-31:]`; a malformed
salt makes `hashpw` raise `ValueError`. -/
def hash_bcrypt (prims : Primitives) (password salt : Bytes) : Except PyErr Bytes :=
  match prims.bcryptHashpw password salt with
  | some hashed_password_and_metadata => .ok (pySliceLast 31 hashed_password_and_metadata)
  | none => .error .ValueError

/-- Auth.__hash_scrypt: `hashlib.scrypt(password, salt=salt, n=16384, r=8, p=1)`. -/
def hash_scrypt (prims : Primitives) (password salt : Bytes) : Bytes :=
  prims.scrypt password salt 16384 8 1

/-- Python truthiness of the `salt` argument of get_hashed_password
(`if salt:`): false for `None` and for the empty string. -/
def saltTruthy (salt : Option String) : Bool :=
  match salt with
  | none => false
  | some s => decide (s ≠ "")

/-- The salt-derivation step of get_hashed_password (auth.py lines 139-147):
explicit salt decoded from hex (`ValueError` on bad hex), else
`bcrypt.gensalt()` for BCRYPT, else `os.urandom(16)`. -/
def saltStep (rng : Rng) (salt : Option String) (alg : AlgoValue) :
    Except PyErr Bytes :=
  if saltTruthy salt then
    match bytesFromHex (salt.getD "") with
    | some bytes_salt => .ok bytes_salt
    | none => .error .ValueError
  else if algEq alg .BCRYPT then .ok rng.gensalt
  else .ok rng.urandom16

/-- The dispatch chain of get_hashed_password (auth.py lines 149-162):
`bytes_hashed_password` starts as `None` and is set by the branch whose
comparison succeeds; a raised library exception propagates. -/
def dispatchStep (prims : Primitives) (alg : AlgoValue)
    (bytes_password bytes_salt : Bytes) : Except PyErr (Option Bytes) :=
  if algEq alg .MD5 then .ok (some (hash_md5 prims bytes_password bytes_salt))
  else if algEq alg .SHA512 then .ok (some (hash_sha512 prims bytes_password bytes_salt))
  else if algEq alg .PBKDF2 then .ok (some (hash_pbkdf2 prims bytes_password bytes_salt))
  else if algEq alg .ARGON2 then
    match hash_argon2 prims bytes_password bytes_salt with
    | .ok b => .ok (some b)
    | .error e => .error e
  else if algEq alg .BCRYPT then
    match hash_bcrypt prims bytes_password bytes_salt with
    | .ok b => .ok (some b)
    | .error e => .error e
  else if algEq alg .SCRYPT then .ok (some (hash_scrypt prims bytes_password bytes_salt))
  else .ok none

/-- The tail of get_hashed_password after the salt bytes are fixed: run the
dispatch, then (auth.py lines 164-171) return the hex pair when
`bytes_hashed_password` is truthy (non-None, non-empty), else raise. -/
def postDispatch (prims : Primitives) (alg : AlgoValue)
    (bytes_password bytes_salt : Bytes) : Except PyErr (String × String) :=
  match dispatchStep prims alg bytes_password bytes_salt with
  | .error e => .error e
  | .ok none => .error .GenericException
  | .ok (some bytes_hashed_password) =>
    if bytes_hashed_password = [] then .error .GenericException
    else .ok (bytesHex bytes_hashed_password, bytesHex bytes_salt)

/-- Auth.get_hashed_password (auth.py lines 126-171): encode the password,
derive the salt bytes, dispatch on the algorithm, and return the
(digest hex, salt hex) pair or raise. -/
def get_hashed_password (prims : Primitives) (rng : Rng) (password : String)
    (salt : Option String) (hashing_algorithm : AlgoValue) :
    Except PyErr (String × String) :=
  match saltStep rng salt hashing_algorithm with
  | .error e => .error e
  | .ok bytes_salt =>
    postDispatch prims hashing_algorithm (strEncode password) bytes_salt

/-- The User record, as constructed by auth.py
(`User(username, password, hashing_algorithm.name, hashed_password, salt)`)
and read by Auth.attemptLogin (`stored_user.hashing_algorithm`,
`stored_user.salt`, `stored_user.hashed_password`).  Modelled from the
spec: user.py is not under src/; the field layout follows the constructor
call and attribute accesses in src and spec sections 3 and 9 (the reference
design stores the plaintext password alongside the hash). -/
structure User where
  username : String
  password : String
  hashing_algorithm : String
  hashed_password : String
  salt : String
deriving DecidableEq, Repr

/-- Auth.attemptLogin (auth.py lines 175-194): look the stored algorithm
name up in the enumeration (`KeyError` on an unknown name), re-hash the
entered password with the stored salt and algorithm (exceptions propagate:
there is no try/except), and compare digest hex strings. -/
def attemptLogin (prims : Primitives) (rng : Rng) (stored_user : User)
    (entered_password : String) : Except PyErr Bool :=
  match HashingAlgorithm.fromName stored_user.hashing_algorithm with
  | none => .error .KeyError
  | some alg =>
    match get_hashed_password prims rng entered_password (some stored_user.salt)
        (.enum alg) with
    | .error e => .error e
    | .ok (hashed_entered_password, _) =>
      if hashed_entered_password = stored_user.hashed_password then .ok true
      else .ok false

/-- Auth.create_user (auth.py lines 198-217): hash with a fresh salt, build
the User record — including the plaintext password as its second field —
and hand it to the persistence layer; the bare `except` prints and returns
`None`, modelled as `none`. -/
def create_user (prims : Primitives) (rng : Rng) (username password : String)
    (hashing_algorithm : HashingAlgorithm) : Option User :=
  match get_hashed_password prims rng password none (.enum hashing_algorithm) with
  | .ok (hashed_password, salt) =>
    some { username := username, password := password,
           hashing_algorithm := hashing_algorithm.name,
           hashed_password := hashed_password, salt := salt }
  | .error _ => none

/-- The attribute names class Auth actually defines (auth.py): Python
name-mangles the double-underscore methods to `_Auth__hash_md5` etc., so
`hash_md5`, `hash_sha512`, ... are not attributes of Auth. -/
def authAttrNames : List String :=
  ["_Auth__hash_md5", "_Auth__hash_sha512", "_Auth__hash_pbkdf2",
   "_Auth__hash_argon2", "_Auth__hash_bcrypt", "_Auth__hash_scrypt",
   "get_hashed_password", "attemptLogin", "create_user"]

/-- Whether class Auth has an attribute of the given name. -/
def authHasAttr (s : String) : Bool := authAttrNames.contains s

/-- The inline login verification of main() (main.py lines 31-42): decode
the stored salt from hex, then evaluate
`stored_password == Auth.hash_md5(password, stored_salt) or ...` over the
three fixed algorithms MD5, SHA-512, PBKDF2.  The attribute lookup
`Auth.hash_md5` fails with `AttributeError` (auth.py defines only the
name-mangled private adapters); were the attribute present, `hashlib`
would reject the `bytes + str` concatenation of the raw `password` string
with `TypeError` before any comparison.  Either way the stored record's
`hashing_algorithm` field is never consulted. -/
def mainLoginCheck (stored_user : User) (password : String) : Except PyErr Bool :=
  match bytesFromHex stored_user.salt with
  | none => .error .ValueError
  | some _stored_salt =>
    if authHasAttr "hash_md5" then .error .TypeError
    else .error .AttributeError

/-- Whether every character of a string is a lowercase hex digit. -/
def isLowerHexStr (s : String) : Bool :=
  s.data.all (fun c => hexDigits.contains c)

/-- A concrete instantiation of the abstract library primitives, used to
evaluate the model at specific inputs. -/
def testPrims : Primitives where
  md5 := fun _ => List.replicate 16 0
  sha512 := fun _ => List.replicate 64 0
  pbkdf2HmacSha256 := fun _ _ _ => List.replicate 32 0
  argon2raw := fun _ _ _ _ _ hash_len _ => List.replicate hash_len 0
  bcryptHashpw := fun _ salt => if salt = [] then none else some (List.replicate 60 97)
  scrypt := fun _ _ _ _ _ => List.replicate 64 0

/-- A concrete random source for evaluating the model. -/
def testRng : Rng where
  urandom16 := List.replicate 16 7
  gensalt := asciiBytes "$2b$12$abcdefghijklmnopqrstuv"

/-- A second concrete random source, differing from `testRng`. -/
def testRng2 : Rng where
  urandom16 := List.replicate 16 9
  gensalt := asciiBytes "$2b$12$ABCDEFGHIJKLMNOPQRSTUV"

/-- The lowercase hex encoding of a concrete 16-byte salt. -/
def salt16hex : String := bytesHex (List.replicate 16 0)

theorem bytesHexChars_cons (b : Nat) (bs : Bytes) :
    bytesHexChars (b :: bs) = byteToHex b ++ bytesHexChars bs := by
  simp [bytesHexChars]

theorem hexDigits_getD_mem (n : Nat) : hexDigits.getD n '0' ∈ hexDigits := by
  by_cases h : n < hexDigits.length
  · rw [List.getD_eq_getElem hexDigits '0' h]
    exact hexDigits.getElem_mem h
  · rw [List.getD_eq_default hexDigits '0' (Nat.le_of_not_lt h)]
    decide

theorem mem_hexDigits_ne_space {c : Char} (h : c ∈ hexDigits) : c ≠ ' ' := by
  fin_cases h <;> decide

theorem hexVal_hexDigit : ∀ n : Fin 16, hexVal (hexDigits.getD n.val '0') = some n.val := by
  decide

theorem hexDigits_contains_getD (n : Nat) :
    hexDigits.contains (hexDigits.getD n '0') = true :=
  List.elem_eq_true_of_mem (hexDigits_getD_mem n)

theorem bytesHex_length (bs : Bytes) : (bytesHex bs).length = 2 * bs.length := by
  show (bytesHexChars bs).length = 2 * bs.length
  induction bs with
  | nil => rfl
  | cons b rest ih =>
    rw [bytesHexChars_cons, List.length_append, ih]
    simp [byteToHex]
    omega

theorem bytesHex_ne_empty {bs : Bytes} (h : bs ≠ []) : bytesHex bs ≠ "" := by
  intro he
  have hl := congrArg String.length he
  rw [bytesHex_length] at hl
  simp at hl
  exact h hl

theorem isLowerHexStr_bytesHex (bs : Bytes) : isLowerHexStr (bytesHex bs) = true := by
  show (bytesHexChars bs).all (fun c => hexDigits.contains c) = true
  induction bs with
  | nil => rfl
  | cons b rest ih =>
    rw [bytesHexChars_cons, List.all_append, ih, Bool.and_true, byteToHex]
    simp only [List.all_cons, List.all_nil, Bool.and_true]
    rw [Bool.and_eq_true]
    exact ⟨hexDigits_contains_getD _, hexDigits_contains_getD _⟩

theorem mem_bytesHexChars_mem_hexDigits {c : Char} :
    ∀ bs : Bytes, c ∈ bytesHexChars bs → c ∈ hexDigits := by
  intro bs
  induction bs with
  | nil => intro hc; cases hc
  | cons b rest ih =>
    intro hc
    rw [bytesHexChars_cons] at hc
    rcases List.mem_append.mp hc with h1 | h2
    · simp only [byteToHex, List.mem_cons, List.not_mem_nil, or_false] at h1
      rcases h1 with rfl | rfl <;> exact hexDigits_getD_mem _
    · exact ih h2

theorem hexPairs_bytesHexChars :
    ∀ bs : Bytes, (∀ b ∈ bs, b < 256) → hexPairs (bytesHexChars bs) = some bs
  | [], _ => rfl
  | b :: rest, hb => by
    have hb256 : b < 256 := hb b (List.mem_cons_self b rest)
    have hdiv : b / 16 < 16 := by omega
    have hmod : b % 16 < 16 := Nat.mod_lt _ (by norm_num)
    have h1 : hexVal (hexDigits.getD (b / 16) '0') = some (b / 16) :=
      hexVal_hexDigit ⟨b / 16, hdiv⟩
    have h2 : hexVal (hexDigits.getD (b % 16) '0') = some (b % 16) :=
      hexVal_hexDigit ⟨b % 16, hmod⟩
    have ihr : hexPairs (bytesHexChars rest) = some rest :=
      hexPairs_bytesHexChars rest (fun x hx => hb x (List.mem_cons_of_mem b hx))
    rw [bytesHexChars_cons, byteToHex]
    show hexPairs (hexDigits.getD (b / 16) '0' :: hexDigits.getD (b % 16) '0' ::
      bytesHexChars rest) = some (b :: rest)
    rw [hexPairs, h1, h2, ihr]
    show some ((16 * (b / 16) + b % 16) :: rest) = some (b :: rest)
    have hdm : 16 * (b / 16) + b % 16 = b := by omega
    rw [hdm]

theorem bytesFromHex_bytesHex (bs : Bytes) (hb : ∀ b ∈ bs, b < 256) :
    bytesFromHex (bytesHex bs) = some bs := by
  show hexPairs ((bytesHexChars bs).filter (fun c => c ≠ ' ')) = some bs
  have hfilter : (bytesHexChars bs).filter (fun c => decide (c ≠ ' ')) = bytesHexChars bs := by
    apply List.filter_eq_self.mpr
    intro c hc
    exact decide_eq_true
      (mem_hexDigits_ne_space (mem_bytesHexChars_mem_hexDigits bs hc))
  rw [hfilter]
  exact hexPairs_bytesHexChars bs hb

theorem b64NoPad_length : ∀ bs : Bytes, (b64NoPad bs).length = (4 * bs.length + 2) / 3
  | [] => rfl
  | [_] => by simp [b64NoPad]
  | [_, _] => by simp [b64NoPad]
  | _ :: _ :: _ :: rest => by
    rw [b64NoPad]
    simp only [List.length_cons, b64NoPad_length rest]
    omega

theorem fromName_name (a : HashingAlgorithm) :
    HashingAlgorithm.fromName a.name = some a := by
  cases a <;> rfl

theorem get_hashed_password_explicit_salt (prims : Primitives) (rng : Rng)
    (password s : String) (alg : AlgoValue) (bs : Bytes)
    (hne : s ≠ "") (hdec : bytesFromHex s = some bs) :
    get_hashed_password prims rng password (some s) alg =
      postDispatch prims alg (strEncode password) bs := by
  unfold get_hashed_password saltStep
  simp [saltTruthy, hne, hdec]

theorem get_hashed_password_generated_salt (prims : Primitives) (rng : Rng)
    (password : String) (salt : Option String) (alg : AlgoValue)
    (hfalse : saltTruthy salt = false) :
    get_hashed_password prims rng password salt alg =
      postDispatch prims alg (strEncode password)
        (if algEq alg .BCRYPT then rng.gensalt else rng.urandom16) := by
  unfold get_hashed_password saltStep
  rw [hfalse]
  cases hB : algEq alg HashingAlgorithm.BCRYPT <;> simp [hB]

theorem postDispatch_ok_salt {prims : Primitives} {alg : AlgoValue}
    {pw bs : Bytes} {d s : String}
    (h : postDispatch prims alg pw bs = .ok (d, s)) : s = bytesHex bs := by
  unfold postDispatch at h
  split at h
  · exact absurd h (by simp)
  · exact absurd h (by simp)
  · split at h
    · exact absurd h (by simp)
    · exact (Prod.mk.injEq .. ▸ Except.ok.injEq .. ▸ h).2.symm

/-- C1: for every algorithm of the six-member enumeration and every
non-empty password, hashing with no explicit salt yields a (digest, salt)
hex pair such that verifying the credential built from them (the member's
name, the digest and the salt) against the same password returns true.
The random sources satisfy their library contracts: `os.urandom(16)`
returns 16 bytes, `bcrypt.gensalt()` a non-empty byte string. -/
theorem C1_roundtrip (prims : Primitives) (rng : Rng) (A : HashingAlgorithm)
    (P username pw0 d s : String)
    (hP : P ≠ "")
    (h16 : rng.urandom16.length = 16)
    (hu : ∀ b ∈ rng.urandom16, b < 256)
    (hg : rng.gensalt ≠ [])
    (hgb : ∀ b ∈ rng.gensalt, b < 256)
    (hhash : get_hashed_password prims rng P none (AlgoValue.enum A) = .ok (d, s)) :
    attemptLogin prims rng
      { username := username, password := pw0, hashing_algorithm := A.name,
        hashed_password := d, salt := s } P = .ok true := by
  rw [get_hashed_password_generated_salt prims rng P none (AlgoValue.enum A) rfl] at hhash
  generalize hgen :
    (if algEq (AlgoValue.enum A) HashingAlgorithm.BCRYPT then rng.gensalt
     else rng.urandom16) = genB at hhash
  have hne : genB ≠ [] := by
    rw [← hgen]
    split
    · exact hg
    · intro h0
      rw [h0] at h16
      simp at h16
  have hbnd : ∀ b ∈ genB, b < 256 := by
    rw [← hgen]
    split
    · exact hgb
    · exact hu
  have hs : s = bytesHex genB := postDispatch_ok_salt hhash
  have hsne : s ≠ "" := hs ▸ bytesHex_ne_empty hne
  have hdec : bytesFromHex s = some genB := by
    rw [hs]
    exact bytesFromHex_bytesHex genB hbnd
  simp only [attemptLogin, fromName_name]
  rw [get_hashed_password_explicit_salt prims rng P s (AlgoValue.enum A) genB hsne hdec,
    hhash]
  simp

theorem C1_witness :
    attemptLogin testPrims testRng
      { username := "u", password := "p", hashing_algorithm := "SHA512",
        hashed_password := bytesHex (List.replicate 64 0),
        salt := bytesHex (List.replicate 16 7) } "pw" = .ok true :=
  C1_roundtrip testPrims testRng HashingAlgorithm.SHA512 "pw" "u" "p"
    (bytesHex (List.replicate 64 0)) (bytesHex (List.replicate 16 7))
    (by decide) (by decide) (by decide) (by decide) (by decide) (by rfl)

/-- C2 counterexample: for algorithm id 4 the digest hex string at a
concrete input (password "pw", a 16-byte salt) has 194 characters, not the
64 a raw 32-byte digest would give: the code stores argon2's full encoded
form, produced with `type=Type.I`. -/
theorem C2_counterexample :
    (get_hashed_password testPrims testRng "pw" (some salt16hex)
        (AlgoValue.enum HashingAlgorithm.ARGON2)).map (fun p => p.1.length) =
      Except.ok 194 ∧ (194 : Nat) ≠ 64 := by
  constructor
  · rfl
  · decide

/-- C2 (amended): for algorithm id 4 the hash operation calls argon2's
`hash_secret` with time_cost=2, memory_cost=102400, parallelism=8,
hash_len=32 and the Argon2i variant (`Type.I`, not Argon2id); the stored
digest is the hex encoding of the library's full encoded output
`$argon2i$v=19$m=102400,t=2,p=8$<b64 salt>$<b64 hash>`, which for a
16-byte salt and the 32-byte raw hash is 194 hex characters, not 64. -/
theorem C2_argon2_encoded (prims : Primitives) (rng : Rng) (P saltHex : String)
    (bs : Bytes)
    (hne : saltHex ≠ "") (hdec : bytesFromHex saltHex = some bs)
    (hlen : bs.length = 16)
    (hraw : (prims.argon2raw (strEncode P) bs 2 102400 8 32 Argon2Type.I).length = 32) :
    get_hashed_password prims rng P (some saltHex) (AlgoValue.enum HashingAlgorithm.ARGON2) =
      .ok (bytesHex (asciiBytes "$argon2i$v=19$m=102400,t=2,p=8$" ++
             asciiBytes (String.mk (b64NoPad bs)) ++ asciiBytes "$" ++
             asciiBytes (String.mk (b64NoPad
               (prims.argon2raw (strEncode P) bs 2 102400 8 32 Argon2Type.I)))),
           bytesHex bs) ∧
    ∀ d s,
      get_hashed_password prims rng P (some saltHex)
          (AlgoValue.enum HashingAlgorithm.ARGON2) = .ok (d, s) →
      d.length = 194 := by
  have h8 : ¬ bs.length < 8 := by omega
  have henc_ne : asciiBytes "$argon2i$v=19$m=102400,t=2,p=8$" ++
      asciiBytes (String.mk (b64NoPad bs)) ++ asciiBytes "$" ++
      asciiBytes (String.mk (b64NoPad
        (prims.argon2raw (strEncode P) bs 2 102400 8 32 Argon2Type.I))) ≠ [] := by
    intro h0
    have h1 := (List.append_eq_nil.mp h0).1
    have h2 := (List.append_eq_nil.mp h1).1
    have h3 := (List.append_eq_nil.mp h2).1
    exact absurd h3 (by decide)
  have ha : hash_argon2 prims (strEncode P) bs =
      .ok (asciiBytes "$argon2i$v=19$m=102400,t=2,p=8$" ++
           asciiBytes (String.mk (b64NoPad bs)) ++ asciiBytes "$" ++
           asciiBytes (String.mk (b64NoPad
             (prims.argon2raw (strEncode P) bs 2 102400 8 32 Argon2Type.I)))) := by
    unfold hash_argon2 hash_secret
    rw [if_neg h8]
    rfl
  have hok : get_hashed_password prims rng P (some saltHex)
      (AlgoValue.enum HashingAlgorithm.ARGON2) =
      .ok (bytesHex (asciiBytes "$argon2i$v=19$m=102400,t=2,p=8$" ++
             asciiBytes (String.mk (b64NoPad bs)) ++ asciiBytes "$" ++
             asciiBytes (String.mk (b64NoPad
               (prims.argon2raw (strEncode P) bs 2 102400 8 32 Argon2Type.I)))),
           bytesHex bs) := by
    rw [get_hashed_password_explicit_salt prims rng P saltHex _ bs hne hdec]
    unfold postDispatch dispatchStep
    rw [if_neg (by decide), if_neg (by decide), if_neg (by decide), if_pos (by decide), ha]
    show (if (asciiBytes "$argon2i$v=19$m=102400,t=2,p=8$" ++
          asciiBytes (String.mk (b64NoPad bs)) ++ asciiBytes "$" ++
          asciiBytes (String.mk (b64NoPad
            (prims.argon2raw (strEncode P) bs 2 102400 8 32 Argon2Type.I)))) = []
        then Except.error PyErr.GenericException
        else Except.ok (bytesHex (asciiBytes "$argon2i$v=19$m=102400,t=2,p=8$" ++
          asciiBytes (String.mk (b64NoPad bs)) ++ asciiBytes "$" ++
          asciiBytes (String.mk (b64NoPad
            (prims.argon2raw (strEncode P) bs 2 102400 8 32 Argon2Type.I)))),
          bytesHex bs)) = _
    rw [if_neg henc_ne]
  refine ⟨hok, ?_⟩
  intro d s hds
  rw [hok] at hds
  have hd : d = bytesHex (asciiBytes "$argon2i$v=19$m=102400,t=2,p=8$" ++
      asciiBytes (String.mk (b64NoPad bs)) ++ asciiBytes "$" ++
      asciiBytes (String.mk (b64NoPad
        (prims.argon2raw (strEncode P) bs 2 102400 8 32 Argon2Type.I)))) :=
    (congrArg Prod.fst (Except.ok.inj hds)).symm
  have hBlen : (asciiBytes (String.mk (b64NoPad bs))).length = 22 := by
    show ((String.mk (b64NoPad bs)).data.map Char.toNat).length = 22
    rw [List.length_map]
    show (b64NoPad bs).length = 22
    rw [b64NoPad_length, hlen]
  have hDlen : (asciiBytes (String.mk (b64NoPad
      (prims.argon2raw (strEncode P) bs 2 102400 8 32 Argon2Type.I)))).length = 43 := by
    show ((String.mk (b64NoPad
      (prims.argon2raw (strEncode P) bs 2 102400 8 32 Argon2Type.I))).data.map Char.toNat).length = 43
    rw [List.length_map]
    show (b64NoPad (prims.argon2raw (strEncode P) bs 2 102400 8 32 Argon2Type.I)).length = 43
    rw [b64NoPad_length, hraw]
  rw [hd, bytesHex_length, List.length_append, List.length_append, List.length_append,
    hBlen, hDlen]
  decide



theorem C2_witness :
    get_hashed_password testPrims testRng "pw" (some salt16hex)
        (AlgoValue.enum HashingAlgorithm.ARGON2) =
      .ok (bytesHex (asciiBytes "$argon2i$v=19$m=102400,t=2,p=8$" ++
             asciiBytes (String.mk (b64NoPad (List.replicate 16 0))) ++ asciiBytes "$" ++
             asciiBytes (String.mk (b64NoPad
               (testPrims.argon2raw (strEncode "pw") (List.replicate 16 0) 2 102400 8 32
                 Argon2Type.I)))),
           bytesHex (List.replicate 16 0)) :=
  (C2_argon2_encoded testPrims testRng "pw" salt16hex (List.replicate 16 0)
    (by decide) (by rfl) (by decide) (by decide)).1

/-- C3 counterexample: at a concrete stored credential (algorithm ARGON2,
a one-byte stored salt, below argon2's minimum) and a concrete attempted
password, the verify operation does not return a boolean: the internal
`HashingError` propagates out of `attemptLogin`. -/
theorem C3_counterexample :
    attemptLogin testPrims testRng
      { username := "alice", password := "", hashing_algorithm := "ARGON2",
        hashed_password := "", salt := "00" } "pw" =
      .error PyErr.HashingError := by
  rfl

/-- C3 (amended): verify returns `true` exactly on digest match and `false`
on mismatch, but internal hashing failures are NOT swallowed: whatever
error the re-hash raises (argon2 `HashingError`, `ValueError` on a bad
stored salt hex, ...) propagates out of `attemptLogin` unchanged, and an
unknown stored algorithm name raises `KeyError`. -/
theorem C3_verify_propagates (prims : Primitives) (rng : Rng) (u : User)
    (P : String) (a : HashingAlgorithm)
    (ha : HashingAlgorithm.fromName u.hashing_algorithm = some a) :
    (∀ e, get_hashed_password prims rng P (some u.salt) (AlgoValue.enum a) = .error e →
        attemptLogin prims rng u P = .error e) ∧
    ∀ d s, get_hashed_password prims rng P (some u.salt) (AlgoValue.enum a) = .ok (d, s) →
      (d = u.hashed_password → attemptLogin prims rng u P = .ok true) ∧
      (d ≠ u.hashed_password → attemptLogin prims rng u P = .ok false) := by
  simp only [attemptLogin, ha]
  constructor
  · intro e he
    rw [he]
  · intro d s hok
    rw [hok]
    constructor
    · intro hd
      show (if d = u.hashed_password then Except.ok true else Except.ok false) = _
      rw [if_pos hd]
    · intro hd
      show (if d = u.hashed_password then Except.ok true else Except.ok false) = _
      rw [if_neg hd]

theorem C3_witness :
    attemptLogin testPrims testRng
      { username := "alice", password := "", hashing_algorithm := "MD5",
        hashed_password := bytesHex (List.replicate 16 0), salt := "aa" } "pw" =
      .ok true :=
  ((C3_verify_propagates testPrims testRng
      { username := "alice", password := "", hashing_algorithm := "MD5",
        hashed_password := bytesHex (List.replicate 16 0), salt := "aa" }
      "pw" HashingAlgorithm.MD5 rfl).2
    (bytesHex (List.replicate 16 0)) (bytesHex [170]) (by rfl)).1 rfl

/-- C4: for every password and every salt the bcrypt adapter accepts
(`bcrypt.hashpw` succeeds, its combined encoding being 60 bytes per the
library's format), the stored digest is exactly the last 31 bytes of that
combined salt-and-digest encoding, and the returned digest hex string has
exactly 62 characters. -/
theorem C4_bcrypt_truncation (prims : Primitives) (rng : Rng) (P saltHex : String)
    (bs full : Bytes)
    (hne : saltHex ≠ "") (hdec : bytesFromHex saltHex = some bs)
    (hpw : prims.bcryptHashpw (strEncode P) bs = some full)
    (hfull : full.length = 60) :
    get_hashed_password prims rng P (some saltHex) (AlgoValue.enum HashingAlgorithm.BCRYPT) =
      .ok (bytesHex (pySliceLast 31 full), bytesHex bs) ∧
    (pySliceLast 31 full).length = 31 ∧
    (bytesHex (pySliceLast 31 full)).length = 62 := by
  have hslice : (pySliceLast 31 full).length = 31 := by
    unfold pySliceLast
    rw [List.length_drop]
    omega
  have hsne : pySliceLast 31 full ≠ [] := by
    intro h0
    rw [h0] at hslice
    simp at hslice
  have hb : hash_bcrypt prims (strEncode P) bs = .ok (pySliceLast 31 full) := by
    unfold hash_bcrypt
    rw [hpw]
  refine ⟨?_, hslice, ?_⟩
  · rw [get_hashed_password_explicit_salt prims rng P saltHex _ bs hne hdec]
    unfold postDispatch dispatchStep
    rw [if_neg (by decide), if_neg (by decide), if_neg (by decide), if_neg (by decide),
      if_pos (by decide), hb]
    show (if pySliceLast 31 full = [] then Except.error PyErr.GenericException
        else Except.ok (bytesHex (pySliceLast 31 full), bytesHex bs)) = _
    rw [if_neg hsne]
  · rw [bytesHex_length, hslice]

theorem C4_witness :
    get_hashed_password testPrims testRng "pw" (some "aa")
        (AlgoValue.enum HashingAlgorithm.BCRYPT) =
      .ok (bytesHex (pySliceLast 31 (List.replicate 60 97)), bytesHex [170]) :=
  (C4_bcrypt_truncation testPrims testRng "pw" "aa" [170] (List.replicate 60 97)
    (by decide) (by rfl) (by decide) (by decide)).1

/-- C5: a value outside the closed six-member enumeration fails every
dispatch comparison, so `get_hashed_password` raises the generic hashing
exception (spec section 7's `HashingError`) and produces no digest, provided
execution reaches the dispatch (an absent, empty or hex-decodable salt
argument; a bad explicit salt raises `ValueError` even earlier); and for
every input the operation either returns a complete (digest, salt) pair or
raises. -/
theorem C5_unknown_algorithm (prims : Primitives) (rng : Rng) (P : String)
    (salt : Option String) (n : Nat)
    (hsalt : saltTruthy salt = false ∨ (bytesFromHex (salt.getD "")).isSome = true) :
    get_hashed_password prims rng P salt (AlgoValue.other n) =
      .error PyErr.GenericException ∧
    ∀ (salt' : Option String) (alg : AlgoValue),
      (∃ d s, get_hashed_password prims rng P salt' alg = .ok (d, s)) ∨
      ∃ e, get_hashed_password prims rng P salt' alg = .error e := by
  constructor
  · have hpost : ∀ bsalt : Bytes,
        postDispatch prims (AlgoValue.other n) (strEncode P) bsalt =
          .error PyErr.GenericException := by
      intro bsalt
      rfl
    by_cases ht : saltTruthy salt = true
    · rcases hsalt with hf | hdec
      · rw [ht] at hf
        exact absurd hf (by decide)
      · match salt, ht with
        | some s, ht =>
          have hs : s ≠ "" := of_decide_eq_true ht
          match hsome : bytesFromHex (Option.getD (some s) "") with
          | some bs =>
            rw [get_hashed_password_explicit_salt prims rng P s (AlgoValue.other n) bs hs
              hsome]
            exact hpost bs
          | none =>
            rw [hsome] at hdec
            exact absurd hdec (by decide)
    · have hf : saltTruthy salt = false := by
        revert ht
        cases saltTruthy salt <;> simp
      rw [get_hashed_password_generated_salt prims rng P salt (AlgoValue.other n) hf]
      exact hpost _
  · intro salt' alg
    match h : get_hashed_password prims rng P salt' alg with
    | .ok (d, s) => exact Or.inl ⟨d, s, rfl⟩
    | .error e => exact Or.inr ⟨e, rfl⟩

theorem C5_witness :
    get_hashed_password testPrims testRng "pw" none (AlgoValue.other 7) =
      .error PyErr.GenericException :=
  (C5_unknown_algorithm testPrims testRng "pw" none 7 (Or.inl rfl)).1

/-- C6: with an explicit salt, the MD5 and SHA-512 digests equal the
single-pass hash of the concatenation salt followed by password bytes, and
both the digest and the salt are returned as lowercase hex with no
separator (each byte contributing exactly two hex digits); the library
digests are non-empty. -/
theorem C6_md5_sha512_digest (prims : Primitives) (rng : Rng) (P saltHex : String)
    (bs : Bytes)
    (hne : saltHex ≠ "") (hdec : bytesFromHex saltHex = some bs)
    (hmd5 : prims.md5 (bs ++ strEncode P) ≠ [])
    (hsha : prims.sha512 (bs ++ strEncode P) ≠ []) :
    get_hashed_password prims rng P (some saltHex) (AlgoValue.enum HashingAlgorithm.MD5) =
      .ok (bytesHex (prims.md5 (bs ++ strEncode P)), bytesHex bs) ∧
    get_hashed_password prims rng P (some saltHex) (AlgoValue.enum HashingAlgorithm.SHA512) =
      .ok (bytesHex (prims.sha512 (bs ++ strEncode P)), bytesHex bs) ∧
    isLowerHexStr (bytesHex (prims.md5 (bs ++ strEncode P))) = true ∧
    isLowerHexStr (bytesHex (prims.sha512 (bs ++ strEncode P))) = true ∧
    isLowerHexStr (bytesHex bs) = true ∧
    (bytesHex (prims.md5 (bs ++ strEncode P))).length =
      2 * (prims.md5 (bs ++ strEncode P)).length ∧
    (bytesHex bs).length = 2 * bs.length := by
  refine ⟨?_, ?_, isLowerHexStr_bytesHex _, isLowerHexStr_bytesHex _,
    isLowerHexStr_bytesHex _, bytesHex_length _, bytesHex_length _⟩
  · rw [get_hashed_password_explicit_salt prims rng P saltHex _ bs hne hdec]
    unfold postDispatch dispatchStep
    rw [if_pos (by decide)]
    show (if hash_md5 prims (strEncode P) bs = [] then Except.error PyErr.GenericException
        else Except.ok (bytesHex (hash_md5 prims (strEncode P) bs), bytesHex bs)) = _
    unfold hash_md5
    rw [if_neg hmd5]
  · rw [get_hashed_password_explicit_salt prims rng P saltHex _ bs hne hdec]
    unfold postDispatch dispatchStep
    rw [if_neg (by decide), if_pos (by decide)]
    show (if hash_sha512 prims (strEncode P) bs = [] then Except.error PyErr.GenericException
        else Except.ok (bytesHex (hash_sha512 prims (strEncode P) bs), bytesHex bs)) = _
    unfold hash_sha512
    rw [if_neg hsha]

theorem C6_witness :
    get_hashed_password testPrims testRng "pw" (some "aa")
        (AlgoValue.enum HashingAlgorithm.MD5) =
      .ok (bytesHex (testPrims.md5 ([170] ++ strEncode "pw")), bytesHex [170]) :=
  (C6_md5_sha512_digest testPrims testRng "pw" "aa" [170]
    (by decide) (by rfl) (by decide) (by decide)).1

/-- C7: the claim is violated by the code — the User record built by
create_user (and persisted via DatabaseConnection.add_user) carries the
plaintext password as its second field: at the concrete input
("alice", "hunter2", MD5) the created record's password field is the
plaintext "hunter2". -/
theorem C7_plaintext_persisted :
    (create_user testPrims testRng "alice" "hunter2" HashingAlgorithm.MD5).map
      User.password = some "hunter2" := by
  rfl

/-- C9: the claim is violated by main.py — its inline login check never
consults the stored record's recorded algorithm (the result is invariant
under replacing that field), and it can never return a boolean at all: it
fails on every input (`Auth.hash_md5` is not an attribute of Auth), while
attempting the three fixed algorithms MD5/SHA-512/PBKDF2 rather than the
recorded one. -/
theorem C9_main_ignores_recorded_algorithm (u : User) (P aName : String) :
    mainLoginCheck { u with hashing_algorithm := aName } P = mainLoginCheck u P ∧
    ∀ b, mainLoginCheck u P ≠ .ok b := by
  constructor
  · rfl
  · intro b h
    unfold mainLoginCheck at h
    split at h
    · exact absurd h (by simp)
    · split at h
      · exact absurd h (by simp)
      · exact absurd h (by simp)

/-- C8: with an explicit non-empty salt, the result of get_hashed_password
is independent of the random sources: two calls with the same password,
salt and algorithm but different randomness return the same result — in
particular the same digest — for every algorithm value.  (An empty salt
string is, by design, treated as no salt at all: see C10.) -/
theorem C8_salt_determinism (prims : Primitives) (rng₁ rng₂ : Rng) (P S : String)
    (A : AlgoValue) (hS : S ≠ "") :
    get_hashed_password prims rng₁ P (some S) A =
      get_hashed_password prims rng₂ P (some S) A := by
  unfold get_hashed_password saltStep
  simp [saltTruthy, hS]

theorem C8_witness :
    get_hashed_password testPrims testRng "pw" (some "aa")
        (AlgoValue.enum HashingAlgorithm.MD5) =
      get_hashed_password testPrims testRng2 "pw" (some "aa")
        (AlgoValue.enum HashingAlgorithm.MD5) :=
  C8_salt_determinism testPrims testRng testRng2 "pw" "aa"
    (AlgoValue.enum HashingAlgorithm.MD5) (by decide)

/-- C10: an empty-string salt argument behaves exactly like an absent one —
the call returns the same result as with no salt, and on success the
returned salt is the hex of the freshly generated bytes (bcrypt.gensalt()
for BCRYPT, the 16 random bytes otherwise, giving a 32-character salt hex);
the empty salt itself is never used. -/
theorem C10_empty_salt (prims : Primitives) (rng : Rng) (P : String) (A : AlgoValue)
    (h16 : rng.urandom16.length = 16) :
    get_hashed_password prims rng P (some "") A = get_hashed_password prims rng P none A ∧
    ∀ d s, get_hashed_password prims rng P (some "") A = .ok (d, s) →
      s = bytesHex (if algEq A HashingAlgorithm.BCRYPT then rng.gensalt
                    else rng.urandom16) ∧
      (algEq A HashingAlgorithm.BCRYPT = false → s.length = 32) := by
  have hgen := get_hashed_password_generated_salt prims rng P (some "") A rfl
  have hgen2 := get_hashed_password_generated_salt prims rng P none A rfl
  constructor
  · rw [hgen, hgen2]
  · intro d s hok
    rw [hgen] at hok
    have hs := postDispatch_ok_salt hok
    refine ⟨hs, fun hB => ?_⟩
    rw [hs, hB]
    simp [bytesHex_length, h16]

theorem C10_witness :
    get_hashed_password testPrims testRng "pw" (some "")
        (AlgoValue.enum HashingAlgorithm.SHA512) =
      get_hashed_password testPrims testRng "pw" none
        (AlgoValue.enum HashingAlgorithm.SHA512) :=
  (C10_empty_salt testPrims testRng "pw" (AlgoValue.enum HashingAlgorithm.SHA512)
    (by decide)).1

end PasswordHashing
